import Mathlib

/-!
Shallow embedding of the FAERS disproportionality-statistics core.

The embedded code is:
* `src/stats.py` — `apply_haldane_if_zero`, `prr_ci`, `ror_ci`, `chi2_pearson`
  and the row-wise body of `add_stats`;
* `app/app.py` — the vectorized statistics, guardrails, sorting and truncation
  inside `get_drug_rows`;
* `minoxidil_analysis.py` — the clamped standard-error radicand of
  `prr_ror_chi2`.

Cell counts are embedded as integers, the float arithmetic of the scripts as
exact rational arithmetic, and the transcendental confidence-interval bounds as
real-valued functions of the rational point estimate and squared standard
error.  A Python exception (`ZeroDivisionError` from `x / 0`, `ValueError`
from `math.sqrt` of a negative or `math.log` of a non-positive argument) is
made explicit with `Except`: each `if` guard in the `Except`-valued
definitions below corresponds, in source order, to the Python operation that
would raise at that point.
-/

/-- A Python-level arithmetic exception: `ZeroDivisionError`, or the
`ValueError` ("math domain error") raised by `math.sqrt` of a negative number
and by `math.log` of a non-positive number. -/
inductive PyErr
  | zeroDiv
  | domain
deriving DecidableEq

/-- Result of `prr_ci` / `ror_ci`: the Python functions return a triple
`(point, lcl, ucl)`.  `infinite` models the early return
`(float("inf"), float("inf"), float("inf"))`; `finite p se2` models the
return `(p, exp(log p - 1.96*sqrt se2), exp(log p + 1.96*sqrt se2))`,
recorded by its point estimate `p` and the squared standard error `se2`
on the log scale (the two real bounds are recovered by `wald_lcl` and
`wald_ucl` below). -/
inductive CITriple
  | infinite
  | finite (point : ℚ) (se2 : ℚ)
deriving DecidableEq

/-- stats.py `apply_haldane_if_zero`: add 0.5 to every cell iff
`min(a, b, c, d) == 0`; otherwise return the raw values (as floats). -/
def apply_haldane_if_zero (a b c d : ℤ) : ℚ × ℚ × ℚ × ℚ :=
  if min (min a b) (min c d) = 0 then
    ((a : ℚ) + 1 / 2, (b : ℚ) + 1 / 2, (c : ℚ) + 1 / 2, (d : ℚ) + 1 / 2)
  else ((a : ℚ), (b : ℚ), (c : ℚ), (d : ℚ))

/-- Body of stats.py `prr_ci` after the Haldane step, on the corrected cells:
`p1 = a/(a+b)`, `p0 = c/(c+d)`, the early return `(inf, inf, inf)` when
`p0 == 0`, `prr = p1/p0`, the radicand `1/a - 1/(a+b) + 1/c - 1/(c+d)` of
`se` (whose leading term `1/a` raises when `a == 0`), `math.sqrt` of that
radicand and `math.log prr`.  Note there is no clamping of the radicand. -/
def prr_ci_core (a b c d : ℚ) : Except PyErr CITriple :=
  if a + b = 0 then .error .zeroDiv
  else if c + d = 0 then .error .zeroDiv
  else if c / (c + d) = 0 then .ok .infinite
  else if a = 0 then .error .zeroDiv
  else if 1 / a - 1 / (a + b) + 1 / c - 1 / (c + d) < 0 then .error .domain
  else if a / (a + b) / (c / (c + d)) ≤ 0 then .error .domain
  else .ok (.finite (a / (a + b) / (c / (c + d)))
    (1 / a - 1 / (a + b) + 1 / c - 1 / (c + d)))

/-- Body of stats.py `ror_ci` after the Haldane step: the early return
`(inf, inf, inf)` when `b == 0 or d == 0`, `ror = (a/b) / (c/d)` (raising
when the divisor `c/d` is zero), the radicand `1/a + 1/b + 1/c + 1/d` of
`se`, `math.sqrt` and `math.log`. -/
def ror_ci_core (a b c d : ℚ) : Except PyErr CITriple :=
  if b = 0 ∨ d = 0 then .ok .infinite
  else if c / d = 0 then .error .zeroDiv
  else if a = 0 then .error .zeroDiv
  else if 1 / a + 1 / b + 1 / c + 1 / d < 0 then .error .domain
  else if a / b / (c / d) ≤ 0 then .error .domain
  else .ok (.finite (a / b / (c / d)) (1 / a + 1 / b + 1 / c + 1 / d))

/-- Body of stats.py `chi2_pearson` after the Haldane step: return `0.0` when
`n == 0` or when the denominator of the Pearson statistic is zero, else
`(a*d - b*c)^2 * n / ((a+b)*(c+d)*(a+c)*(b+d))`. -/
def chi2_core (a b c d : ℚ) : ℚ :=
  if a + b + c + d = 0 then 0
  else if (a + b) * (c + d) * (a + c) * (b + d) = 0 then 0
  else (a * d - b * c) ^ 2 * (a + b + c + d) /
    ((a + b) * (c + d) * (a + c) * (b + d))

/-- stats.py `prr_ci`: PRR and 95 percent Wald CI with conditional Haldane. -/
def prr_ci (a b c d : ℤ) : Except PyErr CITriple :=
  prr_ci_core (apply_haldane_if_zero a b c d).1 (apply_haldane_if_zero a b c d).2.1
    (apply_haldane_if_zero a b c d).2.2.1 (apply_haldane_if_zero a b c d).2.2.2

/-- stats.py `ror_ci`: ROR and 95 percent Wald CI with conditional Haldane. -/
def ror_ci (a b c d : ℤ) : Except PyErr CITriple :=
  ror_ci_core (apply_haldane_if_zero a b c d).1 (apply_haldane_if_zero a b c d).2.1
    (apply_haldane_if_zero a b c d).2.2.1 (apply_haldane_if_zero a b c d).2.2.2

/-- stats.py `chi2_pearson`: Pearson chi-square on the (possibly corrected)
table. -/
def chi2_pearson (a b c d : ℤ) : ℚ :=
  chi2_core (apply_haldane_if_zero a b c d).1 (apply_haldane_if_zero a b c d).2.1
    (apply_haldane_if_zero a b c d).2.2.1 (apply_haldane_if_zero a b c d).2.2.2

/-- The flagging thresholds of stats.py `add_stats`
(defaults `prr_min=2.0`, `chi2_min=4.0`, `n_min=3`). -/
structure ThresholdConfig where
  prr_min : ℚ := 2
  chi2_min : ℚ := 4
  n_min : ℤ := 3
deriving DecidableEq

/-- One output row of stats.py `add_stats`. -/
structure SignalRow where
  N : ℤ
  PRR : CITriple
  ROR : CITriple
  chi2 : ℚ
  unstable_den : Bool
  sparse_bg : Bool
  flagged : Bool
deriving DecidableEq

/-- The comparison `PRR >= t` as `add_stats` evaluates it on the PRR column:
an infinite point value compares greater-or-equal to every threshold. -/
def CITriple.pointGE : CITriple → ℚ → Bool
  | .infinite, _ => true
  | .finite p _, t => decide (t ≤ p)

/-- Propositional form of `CITriple.pointGE`. -/
def CITriple.geQ : CITriple → ℚ → Prop
  | .infinite, _ => True
  | .finite p _, t => t ≤ p

/-- Row-wise body of stats.py `add_stats`: `N` is the raw cell `a` cast to
int; PRR, ROR and chi-square come from `prr_ci`, `ror_ci`, `chi2_pearson`;
`unstable_den = (c < 3) | (d < 3)` and `sparse_bg = (c + d) < 50` are taken
from the raw cells; and
`flagged = (PRR >= prr_min) & (chi2 >= chi2_min) & (N >= n_min)`.
An exception raised by a statistic computation propagates (PRR first, as in
the source). -/
def addStatsRow (cfg : ThresholdConfig) (a b c d : ℤ) : Except PyErr SignalRow :=
  match prr_ci a b c d, ror_ci a b c d with
  | .error e, _ => .error e
  | .ok _, .error e => .error e
  | .ok prrT, .ok rorT =>
    .ok
      { N := a
        PRR := prrT
        ROR := rorT
        chi2 := chi2_pearson a b c d
        unstable_den := decide (c < 3) || decide (d < 3)
        sparse_bg := decide (c + d < 50)
        flagged := prrT.pointGE cfg.prr_min &&
          decide (cfg.chi2_min ≤ chi2_pearson a b c d) && decide (cfg.n_min ≤ a) }

/-- minoxidil_analysis.py `prr_ror_chi2`: the radicand
`var_ln_prr = (1/a) - (1/(a+b)) + (1/c) - (1/(c+d))` of the PRR standard
error. -/
def var_ln_prr (a b c d : ℚ) : ℚ := 1 / a - 1 / (a + b) + 1 / c - 1 / (c + d)

/-- minoxidil_analysis.py `prr_ror_chi2`:
`se_ln_prr = sqrt(max(var_ln_prr, 0))` — the radicand is clamped to zero
before the square root. -/
noncomputable def se_ln_prr (a b c d : ℚ) : ℝ :=
  Real.sqrt (max ((var_ln_prr a b c d : ℚ) : ℝ) 0)

/-- The 95 percent Wald lower bound `exp(ln p - 1.96*sqrt se2)` that
`prr_ci` / `ror_ci` return together with a finite point estimate. -/
noncomputable def wald_lcl (p se2 : ℚ) : ℝ :=
  Real.exp (Real.log (p : ℝ) - 1.96 * Real.sqrt (se2 : ℝ))

/-- The 95 percent Wald upper bound `exp(ln p + 1.96*sqrt se2)`. -/
noncomputable def wald_ucl (p se2 : ℚ) : ℝ :=
  Real.exp (Real.log (p : ℝ) + 1.96 * Real.sqrt (se2 : ℝ))

/-- app.py `get_drug_rows`: `eps` is `0.5` on a row where `zeros_mask` holds
(some raw cell equals zero) and `0.0` otherwise. -/
def appEps (a b c d : ℕ) : ℚ :=
  if a = 0 ∨ b = 0 ∨ c = 0 ∨ d = 0 then 1 / 2 else 0

/-- app.py `get_drug_rows`: the cells with `eps` added. -/
def appCorrected (a b c d : ℕ) : ℚ × ℚ × ℚ × ℚ :=
  ((a : ℚ) + appEps a b c d, (b : ℚ) + appEps a b c d,
    (c : ℚ) + appEps a b c d, (d : ℚ) + appEps a b c d)

/-- app.py `get_drug_rows`: `prr = (a / (a + b)) / (c / (c + d))` on the
eps-corrected cells. -/
def appPRR (a b c d : ℕ) : ℚ :=
  (appCorrected a b c d).1 / ((appCorrected a b c d).1 + (appCorrected a b c d).2.1) /
    ((appCorrected a b c d).2.2.1 /
      ((appCorrected a b c d).2.2.1 + (appCorrected a b c d).2.2.2))

/-- app.py `get_drug_rows`: the radicand of
`se_prr = sqrt((1/a) - (1/(a+b)) + (1/c) - (1/(c+d)))` on the eps-corrected
cells. -/
def appSe2 (a b c d : ℕ) : ℚ :=
  1 / (appCorrected a b c d).1 -
      1 / ((appCorrected a b c d).1 + (appCorrected a b c d).2.1) +
    1 / (appCorrected a b c d).2.2.1 -
      1 / ((appCorrected a b c d).2.2.1 + (appCorrected a b c d).2.2.2)

/-- app.py `get_drug_rows`: `PRR_LCL = exp(log_prr - 1.96 * se_prr)`. -/
noncomputable def appPRR_LCL (a b c d : ℕ) : ℝ :=
  wald_lcl (appPRR a b c d) (appSe2 a b c d)

/-- app.py `get_drug_rows`:
`chi2 = (a*d - b*c)^2 * (a+b+c+d) / ((a+b)*(c+d)*(a+c)*(b+d))` on the
eps-corrected cells (the vectorized form has no zero-denominator guard). -/
def appChi2 (a b c d : ℕ) : ℚ :=
  ((appCorrected a b c d).1 * (appCorrected a b c d).2.2.2 -
        (appCorrected a b c d).2.1 * (appCorrected a b c d).2.2.1) ^ 2 *
      ((appCorrected a b c d).1 + (appCorrected a b c d).2.1 +
        (appCorrected a b c d).2.2.1 + (appCorrected a b c d).2.2.2) /
    (((appCorrected a b c d).1 + (appCorrected a b c d).2.1) *
      ((appCorrected a b c d).2.2.1 + (appCorrected a b c d).2.2.2) *
      ((appCorrected a b c d).1 + (appCorrected a b c d).2.2.1) *
      ((appCorrected a b c d).2.1 + (appCorrected a b c d).2.2.2))

/-- app.py `get_drug_rows`: expected count `Ea = r1 * c1 / n`, computed from
the RAW cells (the expected counts are built before `eps` is applied). -/
def appEa (a b c d : ℕ) : ℚ := ((a : ℚ) + b) * ((a : ℚ) + c) / ((a : ℚ) + b + c + d)

/-- app.py `get_drug_rows`: expected count `Eb = r1 * c2 / n` from raw cells. -/
def appEb (a b c d : ℕ) : ℚ := ((a : ℚ) + b) * ((b : ℚ) + d) / ((a : ℚ) + b + c + d)

/-- app.py `get_drug_rows`: expected count `Ec = r2 * c1 / n` from raw cells. -/
def appEc (a b c d : ℕ) : ℚ := ((c : ℚ) + d) * ((a : ℚ) + c) / ((a : ℚ) + b + c + d)

/-- app.py `get_drug_rows`: expected count `Ed = r2 * c2 / n` from raw cells. -/
def appEd (a b c d : ℕ) : ℚ := ((c : ℚ) + d) * ((b : ℚ) + d) / ((a : ℚ) + b + c + d)

/-- app.py `get_drug_rows`: the row minimum of the four expected counts, as
used by `ok_expected`. -/
def appMinExp (a b c d : ℕ) : ℚ :=
  min (min (appEa a b c d) (appEb a b c d)) (min (appEc a b c d) (appEd a b c d))

/-- app.py `get_drug_rows`: `ok_finite = np.isfinite(PRR)`.  On the embedded
exact arithmetic PRR is the quotient of `p1` by `p0 = c' / (c' + d')`; with
non-negative integer cells the corrected marginals are positive, and the
vectorized float PRR is then non-finite precisely when that divisor `p0`
vanishes, which is how the check is modelled. -/
def appOkFinite (a b c d : ℕ) : Prop :=
  (appCorrected a b c d).2.2.1 /
      ((appCorrected a b c d).2.2.1 + (appCorrected a b c d).2.2.2) ≠ 0

/-- app.py `get_drug_rows`: the flag
`(PRR >= prr_min) & (chi2 >= chi2_min) & (N >= n_min) & ok_expected & ok_lcl
& ok_finite`, with `N = a` and the fixed guardrail `EXP_MIN = 5`. -/
def appFlagged (prrMin chi2Min : ℚ) (nMin a b c d : ℕ) : Prop :=
  prrMin ≤ appPRR a b c d ∧ chi2Min ≤ appChi2 a b c d ∧ nMin ≤ a ∧
    5 ≤ appMinExp a b c d ∧ 1 < appPRR_LCL a b c d ∧ appOkFinite a b c d

/-- One already-computed result row of app.py `get_drug_rows`, as seen by the
final sort/truncate step. -/
structure RankRow where
  PRR : ℚ
  chi2 : ℚ
  flagged : Bool
deriving DecidableEq

/-- The descending lexicographic (PRR, chi2) ranking of
`sort_values(["PRR", "chi2"], ascending=[False, False])`: `rankGE x y` holds
when `x`'s sort key is at least `y`'s, i.e. `x` may be placed before `y`. -/
def rankGE (x y : RankRow) : Prop :=
  y.PRR < x.PRR ∨ (y.PRR = x.PRR ∧ y.chi2 ≤ x.chi2)

/-- Strict version of `rankGE`: `x`'s sort key is strictly greater than
`y`'s. -/
def rankGT (x y : RankRow) : Prop :=
  y.PRR < x.PRR ∨ (y.PRR = x.PRR ∧ y.chi2 < x.chi2)

instance : DecidableRel rankGE := fun x y => by unfold rankGE; infer_instance

instance : DecidableRel rankGT := fun x y => by unfold rankGT; infer_instance

instance : IsTotal RankRow rankGE :=
  ⟨fun x y => by
    unfold rankGE
    rcases lt_trichotomy x.PRR y.PRR with h | h | h
    · exact Or.inr (Or.inl h)
    · rcases le_total y.chi2 x.chi2 with h2 | h2
      · exact Or.inl (Or.inr ⟨h.symm, h2⟩)
      · exact Or.inr (Or.inr ⟨h, h2⟩)
    · exact Or.inl (Or.inl h)⟩

instance : IsTrans RankRow rankGE :=
  ⟨fun x y z hxy hyz => by
    unfold rankGE at hxy hyz ⊢
    rcases hxy with h1 | ⟨h1, h1'⟩ <;> rcases hyz with h2 | ⟨h2, h2'⟩
    · exact Or.inl (h2.trans h1)
    · exact Or.inl (h2 ▸ h1)
    · exact Or.inl (h1 ▸ h2)
    · exact Or.inr ⟨h2.trans h1, h2'.trans h1'⟩⟩

/-- The tail of app.py `get_drug_rows`: keep only flagged rows when
`flagged_only`, sort descending by the lexicographic (PRR, chi2) key, then
truncate to the first `limit` rows (`head(MAX_DISPLAY_ROWS)`). -/
def get_drug_rows_ranked (flaggedOnly : Bool) (limit : ℕ) (rows : List RankRow) :
    List RankRow :=
  (List.insertionSort rankGE
      (if flaggedOnly then rows.filter (fun r => r.flagged) else rows)).take limit

/-! ## Helper lemmas -/

lemma pointGE_iff (t : CITriple) (x : ℚ) : t.pointGE x = true ↔ t.geQ x := by
  cases t <;> simp [CITriple.pointGE, CITriple.geQ]

lemma prr_ci_core_ok_finite {a b c d p s2 : ℚ}
    (h : prr_ci_core a b c d = .ok (.finite p s2)) : 0 < p ∧ 0 ≤ s2 := by
  unfold prr_ci_core at h
  split_ifs at h with h1 h2 h3 h4 h5 h6
  all_goals cases h
  exact ⟨not_le.mp h6, not_lt.mp h5⟩

lemma ror_ci_core_ok_finite {a b c d p s2 : ℚ}
    (h : ror_ci_core a b c d = .ok (.finite p s2)) : 0 < p ∧ 0 ≤ s2 := by
  unfold ror_ci_core at h
  split_ifs at h with h1 h2 h3 h4 h5
  all_goals cases h
  exact ⟨not_le.mp h5, not_lt.mp h4⟩

lemma var_ln_prr_nonneg {a b c d : ℚ} (ha : 0 < a) (hb : 0 < b) (hc : 0 < c)
    (hd : 0 < d) : 0 ≤ var_ln_prr a b c d := by
  have h1 : 1 / (a + b) ≤ 1 / a := one_div_le_one_div_of_le ha (by linarith)
  have h2 : 1 / (c + d) ≤ 1 / c := one_div_le_one_div_of_le hc (by linarith)
  unfold var_ln_prr
  linarith

lemma prr_ci_core_pos {a b c d : ℚ} (ha : 0 < a) (hb : 0 < b) (hc : 0 < c)
    (hd : 0 < d) :
    prr_ci_core a b c d =
      .ok (.finite (a / (a + b) / (c / (c + d)))
        (1 / a - 1 / (a + b) + 1 / c - 1 / (c + d))) := by
  have hab : ¬(a + b = 0) := by positivity
  have hcd : ¬(c + d = 0) := by positivity
  have hp0 : ¬(c / (c + d) = 0) := by positivity
  have hprr : 0 < a / (a + b) / (c / (c + d)) := by positivity
  have hse : 0 ≤ 1 / a - 1 / (a + b) + 1 / c - 1 / (c + d) :=
    var_ln_prr_nonneg ha hb hc hd
  unfold prr_ci_core
  rw [if_neg hab, if_neg hcd, if_neg hp0, if_neg ha.ne', if_neg (not_lt.mpr hse),
    if_neg (not_le.mpr hprr)]

lemma ror_ci_core_pos {a b c d : ℚ} (ha : 0 < a) (hb : 0 < b) (hc : 0 < c)
    (hd : 0 < d) :
    ror_ci_core a b c d =
      .ok (.finite (a / b / (c / d)) (1 / a + 1 / b + 1 / c + 1 / d)) := by
  have hbd : ¬(b = 0 ∨ d = 0) := by
    rintro (h | h)
    · exact hb.ne' h
    · exact hd.ne' h
  have hp0 : ¬(c / d = 0) := by positivity
  have hror : 0 < a / b / (c / d) := by positivity
  have hse : 0 ≤ 1 / a + 1 / b + 1 / c + 1 / d := by positivity
  unfold ror_ci_core
  rw [if_neg hbd, if_neg hp0, if_neg ha.ne', if_neg (not_lt.mpr hse),
    if_neg (not_le.mpr hror)]

lemma natMin_cast_eq_zero_iff (a b c d : ℕ) :
    min (min (a : ℤ) b) (min (c : ℤ) d) = 0 ↔ min (min a b) (min c d) = 0 := by
  constructor
  · intro h
    have : ((min (min a b) (min c d) : ℕ) : ℤ) = 0 := by
      push_cast [Nat.cast_min]
      simpa using h
    exact_mod_cast this
  · intro h
    have : ((min (min a b) (min c d) : ℕ) : ℤ) = 0 := by exact_mod_cast h
    rw [Nat.cast_min, Nat.cast_min, Nat.cast_min] at this
    exact this

lemma haldane_pos (a b c d : ℕ) :
    0 < (apply_haldane_if_zero a b c d).1 ∧
      0 < (apply_haldane_if_zero a b c d).2.1 ∧
      0 < (apply_haldane_if_zero a b c d).2.2.1 ∧
      0 < (apply_haldane_if_zero a b c d).2.2.2 := by
  unfold apply_haldane_if_zero
  split_ifs with h
  · refine ⟨?_, ?_, ?_, ?_⟩ <;> positivity
  · rw [natMin_cast_eq_zero_iff] at h
    rw [Nat.min_eq_zero_iff, Nat.min_eq_zero_iff, Nat.min_eq_zero_iff] at h
    push_neg at h
    obtain ⟨⟨ha, hb⟩, hc, hd⟩ := h
    refine ⟨?_, ?_, ?_, ?_⟩ <;>
      simpa using Nat.cast_pos.mpr (Nat.pos_of_ne_zero (by assumption))

lemma wald_bracket {p s2 : ℚ} (hp : 0 < p) (_hs : 0 ≤ s2) :
    wald_lcl p s2 ≤ (p : ℝ) ∧ (p : ℝ) ≤ wald_ucl p s2 := by
  have hpR : (0 : ℝ) < (p : ℝ) := by exact_mod_cast hp
  have hsq : 0 ≤ Real.sqrt (s2 : ℝ) := Real.sqrt_nonneg _
  unfold wald_lcl wald_ucl
  constructor
  · calc Real.exp (Real.log (p : ℝ) - 1.96 * Real.sqrt (s2 : ℝ)) ≤
        Real.exp (Real.log (p : ℝ)) := Real.exp_le_exp.mpr (by nlinarith)
      _ = (p : ℝ) := Real.exp_log hpR
  · calc (p : ℝ) = Real.exp (Real.log (p : ℝ)) := (Real.exp_log hpR).symm
      _ ≤ Real.exp (Real.log (p : ℝ) + 1.96 * Real.sqrt (s2 : ℝ)) :=
        Real.exp_le_exp.mpr (by nlinarith)

lemma rankGE_not_rankGT {x y : RankRow} (h : rankGE y x) : ¬ rankGT x y := by
  unfold rankGE at h
  unfold rankGT
  rintro (hlt | ⟨heq, hlt⟩) <;> rcases h with h | ⟨h1, h2⟩ <;> linarith

/-! ## Claims -/

/-- C1: the continuity correction is all-or-nothing per table — when some cell
is zero (`min(a,b,c,d) == 0`) the step returns (a+0.5, b+0.5, c+0.5, d+0.5),
otherwise the raw values unchanged — and every statistic is computed from
these corrected cells: in stats.py `prr_ci`, `ror_ci` and `chi2_pearson` all
factor through `apply_haldane_if_zero`, and the app's eps-based correction
produces the identical corrected cells. -/
theorem C1_haldane_all_or_nothing (a b c d : ℕ) :
    (min (min a b) (min c d) = 0 →
      apply_haldane_if_zero a b c d =
        ((a : ℚ) + 1 / 2, (b : ℚ) + 1 / 2, (c : ℚ) + 1 / 2, (d : ℚ) + 1 / 2)) ∧
    (min (min a b) (min c d) ≠ 0 →
      apply_haldane_if_zero a b c d = ((a : ℚ), (b : ℚ), (c : ℚ), (d : ℚ))) ∧
    prr_ci a b c d =
      prr_ci_core (apply_haldane_if_zero a b c d).1 (apply_haldane_if_zero a b c d).2.1
        (apply_haldane_if_zero a b c d).2.2.1 (apply_haldane_if_zero a b c d).2.2.2 ∧
    ror_ci a b c d =
      ror_ci_core (apply_haldane_if_zero a b c d).1 (apply_haldane_if_zero a b c d).2.1
        (apply_haldane_if_zero a b c d).2.2.1 (apply_haldane_if_zero a b c d).2.2.2 ∧
    chi2_pearson a b c d =
      chi2_core (apply_haldane_if_zero a b c d).1 (apply_haldane_if_zero a b c d).2.1
        (apply_haldane_if_zero a b c d).2.2.1 (apply_haldane_if_zero a b c d).2.2.2 ∧
    appCorrected a b c d = apply_haldane_if_zero a b c d := by
  refine ⟨?_, ?_, rfl, rfl, rfl, ?_⟩
  · intro h
    unfold apply_haldane_if_zero
    rw [if_pos ((natMin_cast_eq_zero_iff a b c d).mpr h)]
    simp
  · intro h
    unfold apply_haldane_if_zero
    rw [if_neg (fun h0 => h ((natMin_cast_eq_zero_iff a b c d).mp h0))]
    simp
  · by_cases h0 : a = 0 ∨ b = 0 ∨ c = 0 ∨ d = 0
    · have hmin : min (min a b) (min c d) = 0 := by
        simp only [Nat.min_eq_zero_iff]
        tauto
      unfold appCorrected appEps apply_haldane_if_zero
      rw [if_pos h0, if_pos ((natMin_cast_eq_zero_iff a b c d).mpr hmin)]
      simp
    · have hmin : min (min a b) (min c d) ≠ 0 := by
        simp only [ne_eq, Nat.min_eq_zero_iff]
        tauto
      unfold appCorrected appEps apply_haldane_if_zero
      rw [if_neg h0, if_neg (fun h1 => hmin ((natMin_cast_eq_zero_iff a b c d).mp h1))]
      simp

/-- C1 witness: the claim theorem evaluated at the tables (0,1,2,3) (a zero
cell, so corrected) and (1,2,3,4) (no zero cell, so raw). -/
theorem C1_haldane_all_or_nothing_witness :
    apply_haldane_if_zero 0 1 2 3 =
        (((0 : ℕ) : ℚ) + 1 / 2, ((1 : ℕ) : ℚ) + 1 / 2, ((2 : ℕ) : ℚ) + 1 / 2,
          ((3 : ℕ) : ℚ) + 1 / 2) ∧
      apply_haldane_if_zero 1 2 3 4 =
        (((1 : ℕ) : ℚ), ((2 : ℕ) : ℚ), ((3 : ℕ) : ℚ), ((4 : ℕ) : ℚ)) :=
  ⟨(C1_haldane_all_or_nothing 0 1 2 3).1 (by decide),
    (C1_haldane_all_or_nothing 1 2 3 4).2.1 (by decide)⟩

/-- C2: with guardrails off (stats.py add_stats), a computed row is flagged
iff PRR >= prr_min, chi2 >= chi2_min and N >= n_min, where N is the raw
uncorrected cell count a. -/
theorem C2_flagged_iff_base_rule (cfg : ThresholdConfig) (a b c d : ℤ)
    (row : SignalRow) (h : addStatsRow cfg a b c d = .ok row) :
    row.N = a ∧
      (row.flagged = true ↔
        row.PRR.geQ cfg.prr_min ∧ cfg.chi2_min ≤ row.chi2 ∧ cfg.n_min ≤ row.N) := by
  unfold addStatsRow at h
  rcases hp : prr_ci a b c d with e | prrT <;> rw [hp] at h
  · cases h
  rcases hr : ror_ci a b c d with e | rorT <;> rw [hr] at h
  · cases h
  cases h
  refine ⟨rfl, ?_⟩
  simp only [Bool.and_eq_true, decide_eq_true_eq, pointGE_iff]
  tauto

/-- C2 witness: the claim theorem evaluated at the table (1,1,1,1) with the
default thresholds. -/
theorem C2_flagged_iff_base_rule_witness :
    (SignalRow.mk 1 (.finite 1 1) (.finite 1 4) 0 true true false).N = 1 ∧
      ((SignalRow.mk 1 (.finite 1 1) (.finite 1 4) 0 true true false).flagged = true ↔
        (SignalRow.mk 1 (.finite 1 1) (.finite 1 4) 0 true true false).PRR.geQ 2 ∧
          (4 : ℚ) ≤ (SignalRow.mk 1 (.finite 1 1) (.finite 1 4) 0 true true false).chi2 ∧
          (3 : ℤ) ≤ (SignalRow.mk 1 (.finite 1 1) (.finite 1 4) 0 true true false).N) :=
  C2_flagged_iff_base_rule ⟨2, 4, 3⟩ 1 1 1 1 _ (by
    norm_num [addStatsRow, prr_ci, ror_ci, chi2_pearson, apply_haldane_if_zero,
      prr_ci_core, ror_ci_core, chi2_core, CITriple.pointGE])

/-- C3: on every corrected table the chi-square equals the Pearson statistic
without Yates correction, `(a'd' - b'c')^2 * N / (row1*row2*col1*col2)`, and
a zero denominator returns 0.0 instead of dividing by zero. -/
theorem C3_chi2_pearson_no_yates (a b c d : ℚ) :
    ((a + b) * (c + d) * (a + c) * (b + d) = 0 → chi2_core a b c d = 0) ∧
      ((a + b) * (c + d) * (a + c) * (b + d) ≠ 0 →
        chi2_core a b c d =
          (a * d - b * c) ^ 2 * (a + b + c + d) /
            ((a + b) * (c + d) * (a + c) * (b + d))) := by
  constructor
  · intro h
    unfold chi2_core
    by_cases hn : a + b + c + d = 0
    · rw [if_pos hn]
    · rw [if_neg hn, if_pos h]
  · intro h
    unfold chi2_core
    by_cases hn : a + b + c + d = 0
    · rw [if_pos hn, hn, mul_zero, zero_div]
    · rw [if_neg hn, if_neg h]

/-- C3 witness: the claim theorem at the degenerate corrected table (0,0,1,1)
(zero denominator) and at (1,1,1,1) (nonzero denominator). -/
theorem C3_chi2_pearson_no_yates_witness :
    chi2_core 0 0 1 1 = 0 ∧
      chi2_core 1 1 1 1 =
        ((1 : ℚ) * 1 - 1 * 1) ^ 2 * (1 + 1 + 1 + 1) /
          ((1 + 1) * (1 + 1) * (1 + 1) * (1 + 1)) :=
  ⟨(C3_chi2_pearson_no_yates 0 0 1 1).1 (by norm_num),
    (C3_chi2_pearson_no_yates 1 1 1 1).2 (by norm_num)⟩

/-- C4 counterexample: the engine performs no input validation at all — on the
table (-100, -100, 5, 5), which has negative raw cells, add_stats raises
nothing (no InvalidTableError exists anywhere in the code) and returns a
complete statistics row. -/
theorem C4_counterexample :
    addStatsRow ⟨2, 4, 3⟩ (-100) (-100) 5 5 =
      .ok (SignalRow.mk (-100) (.finite 1 (19 / 200)) (.finite 1 (19 / 50)) 0
        false true false) := by
  norm_num [addStatsRow, prr_ci, ror_ci, chi2_pearson, apply_haldane_if_zero,
    prr_ci_core, ror_ci_core, chi2_core, CITriple.pointGE]

/-- C4 amended: the engine does not validate its input: a table whose minimum
cell is negative is passed through the correction step unchanged (neither
corrected nor rejected — no error of any kind is raised at validation), and
on every all-non-negative table the whole engine succeeds. -/
theorem C4_no_input_validation :
    (∀ a b c d : ℤ, min (min a b) (min c d) < 0 →
      apply_haldane_if_zero a b c d = ((a : ℚ), (b : ℚ), (c : ℚ), (d : ℚ))) ∧
    ∀ (cfg : ThresholdConfig) (a b c d : ℕ),
      ∃ row : SignalRow, addStatsRow cfg a b c d = .ok row := by
  constructor
  · intro a b c d h
    unfold apply_haldane_if_zero
    rw [if_neg h.ne]
  · intro cfg a b c d
    obtain ⟨h1, h2, h3, h4⟩ := haldane_pos a b c d
    have hp := prr_ci_core_pos h1 h2 h3 h4
    have hr := ror_ci_core_pos h1 h2 h3 h4
    rcases hx : addStatsRow cfg a b c d with e | row
    · exfalso
      unfold addStatsRow prr_ci ror_ci at hx
      rw [hp, hr] at hx
      cases hx
    · exact ⟨row, rfl⟩

/-- C4 witness: the amended claim at the negative table (-1, 1, 1, 1) and at
the all-zero non-negative table (0, 0, 0, 0) with default thresholds. -/
theorem C4_no_input_validation_witness :
    apply_haldane_if_zero (-1) 1 1 1 = ((-1 : ℚ), (1 : ℚ), (1 : ℚ), (1 : ℚ)) ∧
      ∃ row : SignalRow, addStatsRow ⟨2, 4, 3⟩ 0 0 0 0 = .ok row :=
  ⟨C4_no_input_validation.1 (-1) 1 1 1 (by decide),
    C4_no_input_validation.2 ⟨2, 4, 3⟩ 0 0 0 0⟩

/-- C5 counterexample: at the corrected table a' = b' = 1, c' = d' = 0 the PRR
computation raises a ZeroDivisionError while computing p0 = c'/(c'+d'); it
does not return the infinite triple. -/
theorem C5_counterexample : prr_ci_core 1 1 0 0 = .error .zeroDiv := by
  norm_num [prr_ci_core]

/-- C5 amended: whenever the computed background proportion p0 = c'/(c'+d')
equals zero with both marginals a'+b' and c'+d' nonzero (that is c' = 0 with
c'+d' nonzero — the only situation in which the `p0 == 0` guard can fire),
the PRR computation returns PRR = PRR_LCL = PRR_UCL = +infinity without
raising; when instead c' = d' = 0 the computation of p0 itself raises a
ZeroDivisionError. -/
theorem C5_p0_zero_returns_infinite (a b c d : ℚ) (hab : a + b ≠ 0)
    (hcd : c + d ≠ 0) (hp0 : c / (c + d) = 0) :
    prr_ci_core a b c d = .ok .infinite := by
  unfold prr_ci_core
  rw [if_neg hab, if_neg hcd, if_pos hp0]

/-- C5 witness: the amended claim at the corrected table (1, 1, 0, 5). -/
theorem C5_p0_zero_returns_infinite_witness : prr_ci_core 1 1 0 5 = .ok .infinite :=
  C5_p0_zero_returns_infinite 1 1 0 5 (by norm_num) (by norm_num) (by norm_num)

/-- C6: whenever prr_ci and ror_ci return finite statistics, the Wald
intervals bracket their point estimates: PRR_LCL <= PRR <= PRR_UCL and
ROR_LCL <= ROR <= ROR_UCL. -/
theorem C6_wald_ci_brackets_point (a b c d : ℤ) (p s2 q t2 : ℚ)
    (hp : prr_ci a b c d = .ok (.finite p s2))
    (hq : ror_ci a b c d = .ok (.finite q t2)) :
    (wald_lcl p s2 ≤ (p : ℝ) ∧ (p : ℝ) ≤ wald_ucl p s2) ∧
      (wald_lcl q t2 ≤ (q : ℝ) ∧ (q : ℝ) ≤ wald_ucl q t2) := by
  unfold prr_ci at hp
  unfold ror_ci at hq
  obtain ⟨hp1, hp2⟩ := prr_ci_core_ok_finite hp
  obtain ⟨hq1, hq2⟩ := ror_ci_core_ok_finite hq
  exact ⟨wald_bracket hp1 hp2, wald_bracket hq1 hq2⟩

/-- C6 witness: the claim theorem at the table (1, 1, 1, 1), whose PRR and ROR
are both 1 with squared standard errors 1 and 4. -/
theorem C6_wald_ci_brackets_point_witness :
    (wald_lcl 1 1 ≤ ((1 : ℚ) : ℝ) ∧ ((1 : ℚ) : ℝ) ≤ wald_ucl 1 1) ∧
      (wald_lcl 1 4 ≤ ((1 : ℚ) : ℝ) ∧ ((1 : ℚ) : ℝ) ≤ wald_ucl 1 4) :=
  C6_wald_ci_brackets_point 1 1 1 1 1 1 1 4
    (by norm_num [prr_ci, apply_haldane_if_zero, prr_ci_core])
    (by norm_num [ror_ci, apply_haldane_if_zero, ror_ci_core])

/-- C7: with guardrails on (app.py get_drug_rows), failing any guardrail —
PRR_LCL <= 1.0, a minimum expected cell below the fixed EXP_MIN = 5, or a
non-finite PRR — prevents flagging for every table and threshold
configuration, even when the base rule would flag it. -/
theorem C7_guardrails_veto (prrMin chi2Min : ℚ) (nMin a b c d : ℕ)
    (h : appPRR_LCL a b c d ≤ 1 ∨ appMinExp a b c d < 5 ∨ ¬ appOkFinite a b c d) :
    ¬ appFlagged prrMin chi2Min nMin a b c d := by
  rintro ⟨-, -, -, hE, hL, hF⟩
  rcases h with h | h | h
  · exact absurd hL (not_lt.mpr h)
  · exact absurd hE (not_le.mpr h)
  · exact h hF

/-- C7 witness: at the table (1,1,1,1) every expected cell is 1 < 5, so the
guardrails veto the flag at the default thresholds. -/
theorem C7_guardrails_veto_witness : ¬ appFlagged 2 4 3 1 1 1 1 :=
  C7_guardrails_veto 2 4 3 1 1 1 1
    (Or.inr (Or.inl (by norm_num [appMinExp, appEa, appEb, appEc, appEd])))

/-- C8: the ranked batch output is sorted descending by the lexicographic
(PRR, chi2) key — higher PRR first, chi2 breaking ties — and the row limit
truncates only after the full sort: no truncated row has a strictly greater
sort key than any retained row. -/
theorem C8_sort_then_truncate (flaggedOnly : Bool) (limit : ℕ) (rows : List RankRow) :
    List.Sorted rankGE (get_drug_rows_ranked flaggedOnly limit rows) ∧
      ∀ x ∈ (List.insertionSort rankGE
          (if flaggedOnly then rows.filter (fun r => r.flagged) else rows)).drop limit,
        ∀ y ∈ get_drug_rows_ranked flaggedOnly limit rows, ¬ rankGT x y := by
  have hs : List.Sorted rankGE
      (List.insertionSort rankGE
        (if flaggedOnly then rows.filter (fun r => r.flagged) else rows)) :=
    List.sorted_insertionSort rankGE _
  unfold get_drug_rows_ranked
  constructor
  · exact List.Pairwise.sublist (List.take_sublist _ _) hs
  · intro x hx y hy
    exact rankGE_not_rankGT (hs.rel_of_mem_take_of_mem_drop hy hx)

/-- C8 witness: on rows with (PRR, chi2) keys (3,50), (5,10), (5,20) and
limit 2, the output is sorted and the truncated row (3,50) has no strictly
greater key than the retained row (5,20). -/
theorem C8_sort_then_truncate_witness :
    List.Sorted rankGE
        (get_drug_rows_ranked false 2 [⟨3, 50, true⟩, ⟨5, 10, true⟩, ⟨5, 20, true⟩]) ∧
      ¬ rankGT ⟨3, 50, true⟩ ⟨5, 20, true⟩ :=
  ⟨(C8_sort_then_truncate false 2 [⟨3, 50, true⟩, ⟨5, 10, true⟩, ⟨5, 20, true⟩]).1,
    (C8_sort_then_truncate false 2 [⟨3, 50, true⟩, ⟨5, 10, true⟩, ⟨5, 20, true⟩]).2
      ⟨3, 50, true⟩ (by decide) ⟨5, 20, true⟩ (by decide)⟩

/-- C9 counterexample: stats.py prr_ci does not clamp the standard-error
radicand: at the table (3, -1, 3, -1) (no zero cell, so no correction) the
radicand is -1/3 and the computation raises the math domain error of
math.sqrt instead of clamping to zero. -/
theorem C9_counterexample : prr_ci 3 (-1) 3 (-1) = .error .domain := by
  norm_num [prr_ci, apply_haldane_if_zero, prr_ci_core]

/-- C9 amended: the clamp is present in minoxidil_analysis.py — se_ln_prr
takes sqrt(max(var_ln_prr, 0)) — but absent from stats.py prr_ci; on every
corrected table with strictly positive cells the radicand is non-negative in
exact arithmetic, so there the clamp is a no-op and the unclamped stats.py
computation also succeeds without raising. -/
theorem C9_se_radicand_clamp (a b c d : ℚ) (ha : 0 < a) (hb : 0 < b) (hc : 0 < c)
    (hd : 0 < d) :
    0 ≤ var_ln_prr a b c d ∧
      se_ln_prr a b c d = Real.sqrt ((var_ln_prr a b c d : ℚ) : ℝ) ∧
      prr_ci_core a b c d =
        .ok (.finite (a / (a + b) / (c / (c + d))) (var_ln_prr a b c d)) := by
  have h0 := var_ln_prr_nonneg ha hb hc hd
  refine ⟨h0, ?_, ?_⟩
  · unfold se_ln_prr
    rw [max_eq_left (by exact_mod_cast h0)]
  · rw [prr_ci_core_pos ha hb hc hd]
    rfl

/-- C9 witness: the amended claim at the corrected table (1, 1, 1, 1). -/
theorem C9_se_radicand_clamp_witness :
    0 ≤ var_ln_prr 1 1 1 1 ∧
      se_ln_prr 1 1 1 1 = Real.sqrt ((var_ln_prr 1 1 1 1 : ℚ) : ℝ) ∧
      prr_ci_core 1 1 1 1 =
        .ok (.finite ((1 : ℚ) / (1 + 1) / (1 / (1 + 1))) (var_ln_prr 1 1 1 1)) :=
  C9_se_radicand_clamp 1 1 1 1 (by norm_num) (by norm_num) (by norm_num) (by norm_num)

/-- C10: add_stats computes the diagnostics from the raw uncorrected cells —
unstable_den is true iff c < 3 or d < 3, sparse_bg is true iff c + d < 50 —
and the flagged decision is a function of the PRR, chi2 and N fields alone,
so the diagnostics have no influence on it. -/
theorem C10_diagnostics_raw_cells (cfg : ThresholdConfig) (a b c d : ℤ)
    (row : SignalRow) (h : addStatsRow cfg a b c d = .ok row) :
    (row.unstable_den = true ↔ c < 3 ∨ d < 3) ∧
      (row.sparse_bg = true ↔ c + d < 50) ∧
      row.flagged = (row.PRR.pointGE cfg.prr_min &&
        decide (cfg.chi2_min ≤ row.chi2) && decide (cfg.n_min ≤ row.N)) := by
  unfold addStatsRow at h
  rcases hp : prr_ci a b c d with e | prrT <;> rw [hp] at h
  · cases h
  rcases hr : ror_ci a b c d with e | rorT <;> rw [hr] at h
  · cases h
  cases h
  refine ⟨?_, ?_, rfl⟩
  · simp
  · simp

/-- C10 witness: the claim theorem at the all-zero table with default
thresholds. -/
theorem C10_diagnostics_raw_cells_witness :
    ((SignalRow.mk 0 (.finite 1 2) (.finite 1 8) 0 true true false).unstable_den = true ↔
        (0 : ℤ) < 3 ∨ (0 : ℤ) < 3) ∧
      ((SignalRow.mk 0 (.finite 1 2) (.finite 1 8) 0 true true false).sparse_bg = true ↔
        (0 : ℤ) + 0 < 50) ∧
      (SignalRow.mk 0 (.finite 1 2) (.finite 1 8) 0 true true false).flagged =
        ((SignalRow.mk 0 (.finite 1 2) (.finite 1 8) 0 true true false).PRR.pointGE 2 &&
          decide ((4 : ℚ) ≤
            (SignalRow.mk 0 (.finite 1 2) (.finite 1 8) 0 true true false).chi2) &&
          decide ((3 : ℤ) ≤
            (SignalRow.mk 0 (.finite 1 2) (.finite 1 8) 0 true true false).N)) :=
  C10_diagnostics_raw_cells ⟨2, 4, 3⟩ 0 0 0 0 _ (by
    norm_num [addStatsRow, prr_ci, ror_ci, chi2_pearson, apply_haldane_if_zero,
      prr_ci_core, ror_ci_core, chi2_core, CITriple.pointGE])
